import Mathlib

/-!
# Verification of the mightybadger error-capture client

A shallow embedding, in Lean 4, of the core of the `mightybadger` crate
(src/src of the repository): the panic-safe configuration store
(`config.rs`), the backtrace parser/trimmer/decorator (`btparse.rs`),
the context propagator (`context.rs`), the plugin registry
(`plugin.rs`), payload sanitization (`payload.rs`), and the reporting
orchestration and transport-outcome taxonomy (`lib.rs`).

Modelling conventions:
* Rust `String`/`&str` values are modelled as `List Char` (`Str`);
  byte positions in the source's slicing all fall on character
  boundaries for the ASCII markers involved, so character-level
  processing coincides with the byte-level code.
* Machine integers (`u32`, `u16`) are modelled as `Nat`; where the code
  uses saturating `u32` arithmetic the saturation bound `2 ^ 32 - 1` is
  written out explicitly.
* Maps (`HashMap`, `BTreeMap`) are modelled as association lists; the
  `BTreeMap` built by the source decorator is produced in increasing
  key order, which the list preserves.
* Lock acquisition (`RwLock`) is modelled as always succeeding: the
  embedding is single-threaded, and the lemmas below concern the
  sequential contracts of the store.
* `catch_unwind`/panics are modelled with `Except`: a mutator or
  plugin either returns normally (`ok`) or unwinds (`error`).
-/

set_option autoImplicit false

namespace Mightybadger

/-- Rust strings, modelled character by character. -/
abbrev Str := List Char

/-! ## Configuration (`src/src/config.rs`) -/

/-- `ConnectionConfig` from `config.rs`. -/
structure ConnectionConfig where
  secure : Option Bool
  host : Option Str
  port : Option Nat
  deriving DecidableEq

/-- `RequestConfig` from `config.rs`. -/
structure RequestConfig where
  filter_keys : Option (List Str)
  deriving DecidableEq

/-- `Config` from `config.rs` (the `_non_exhaustive : ()` marker fields
carry no data and are omitted). -/
structure Config where
  api_key : Option Str
  env : Option Str
  report_data : Option Bool
  root : Option Str
  revision : Option Str
  hostname : Option Str
  connection : ConnectionConfig
  request : RequestConfig
  deriving DecidableEq

/-- Rust's `str::contains(s)`: `needle` occurs as a contiguous
substring of `hay`. -/
def is_substring (needle : Str) : Str → Bool
  | [] => needle.isEmpty
  | c :: t => needle.isPrefixOf (c :: t) || is_substring needle t

/-- `RequestConfig::filter_key`: the key is filtered when it contains
one of the configured `filter_keys` as a substring, defaulting to
`["password", "HTTP_AUTHORIZATION"]` when unset. -/
def RequestConfig.filter_key (rc : RequestConfig) (key : Str) : Bool :=
  match rc.filter_keys with
  | some filter_keys => filter_keys.any (fun s => is_substring s key)
  | none => ["password".data, "HTTP_AUTHORIZATION".data].any (fun s => is_substring s key)

/-- The two global cells of `config.rs`: the actual configuration
`CONFIG` (read by `read_config`) and its copy `CONFIG_PROXY` (the
working buffer of `configure`). -/
structure ConfigStore where
  CONFIG : Config
  CONFIG_PROXY : Config

/-- Abnormal termination of a mutator (the payload carried by a Rust
panic), abstracted to a string. -/
abbrev PanicValue := Str

/-- `read_config` from `config.rs`: a read-only view of `CONFIG`. -/
def read_config (s : ConfigStore) : Config :=
  s.CONFIG

/-- `configure` from `config.rs`.  The mutator `f` runs on the
`CONFIG_PROXY` buffer under `catch_unwind` (modelled by `Except`):
on normal return the result is committed to `CONFIG` by
`replace_config`; on a panic the partially mutated buffer is discarded,
`CONFIG_PROXY` is restored from `read_config()` (which still holds the
pre-call value, since `replace_config` was never reached), and the
panic is returned to the caller (`resume_unwind`). -/
def configure (f : Config → Except PanicValue Config) (s : ConfigStore) :
    ConfigStore × Option PanicValue :=
  match f s.CONFIG_PROXY with
  | .ok c => ({ CONFIG := c, CONFIG_PROXY := c }, none)
  | .error e => ({ CONFIG := s.CONFIG, CONFIG_PROXY := s.CONFIG }, some e)

/-! ## Payload (`src/src/payload.rs`) -/

/-- An arbitrary JSON value (`serde_json::Value`): only the string
constructor is interpreted (sanitization writes one); every other
value is carried opaquely. -/
inductive JsonValue where
  | str (s : Str)
  | other (tag : Nat)
  deriving DecidableEq

/-- `NotifierInfo` from `payload.rs`. -/
structure NotifierInfo where
  name : Str
  url : Str
  version : Str
  language : Str
  deriving DecidableEq

/-- `BacktraceEntry` from `payload.rs`; the `BTreeMap<u32, String>`
source window is an association list in increasing key order. -/
structure BacktraceEntry where
  number : Option Str
  file : Option Str
  method : Str
  source : Option (List (Nat × Str))
  deriving DecidableEq

/-- `ErrorCause` from `payload.rs`. -/
structure ErrorCause where
  class_ : Str
  message : Str
  backtrace : Option (List BacktraceEntry)
  deriving DecidableEq

/-- `ErrorInfo` from `payload.rs`; the `Uuid` token is carried as a
string. -/
structure ErrorInfo where
  token : Option Str
  class_ : Str
  message : Str
  tags : List Str
  fingerprint : Str
  backtrace : Option (List BacktraceEntry)
  causes : List ErrorCause
  deriving DecidableEq

/-- `RequestInfo` from `payload.rs`. -/
structure RequestInfo where
  url : Str
  cgi_data : List (Str × Str)
  params : List (Str × Str)
  component : Str
  action : Str
  session : List (Str × Str)
  context : List (Str × JsonValue)
  local_variables : List (Str × JsonValue)
  deriving DecidableEq

/-- `MemoryInfo` from `payload.rs` (`f64` readings). -/
structure MemoryInfo where
  total : Option Float
  free : Option Float
  buffers : Option Float
  cached : Option Float
  free_total : Option Float

/-- `LoadInfo` from `payload.rs`. -/
structure LoadInfo where
  one : Option Float
  five : Option Float
  fifteen : Option Float

/-- `Stats` from `payload.rs`. -/
structure Stats where
  mem : Option MemoryInfo
  load : Option LoadInfo

/-- `ServerInfo` from `payload.rs`. -/
structure ServerInfo where
  project_root : Option Str
  revision : Option Str
  environment_name : Option Str
  hostname : Option Str
  stats : Stats
  time : Str
  pid : Nat

/-- `Payload` from `payload.rs`. -/
structure Payload where
  api_key : Str
  notifier : Option NotifierInfo
  error : ErrorInfo
  request : Option RequestInfo
  server : ServerInfo

/-- The fixed redaction marker written by `RequestInfo::sanitize`. -/
def FILTERED : Str := "[FILTERED]".data

/-- One `for (k, v) in map.iter_mut()` sanitization loop of
`RequestInfo::sanitize`: the value of every filtered key is replaced by
`"[FILTERED]"`, keys are untouched. -/
def sanitize_string_map (rc : RequestConfig) (m : List (Str × Str)) : List (Str × Str) :=
  m.map (fun kv => if rc.filter_key kv.1 then (kv.1, FILTERED) else kv)

/-- The `context` sanitization loop of `RequestInfo::sanitize`
(values are JSON; the marker is written as a JSON string). -/
def sanitize_json_map (rc : RequestConfig) (m : List (Str × JsonValue)) :
    List (Str × JsonValue) :=
  m.map (fun kv => if rc.filter_key kv.1 then (kv.1, JsonValue.str FILTERED) else kv)

/-- `RequestInfo::sanitize` from `payload.rs`.  The source reads the
global configuration via `read_config()`; the embedding passes that
configuration's `request` field explicitly. -/
def RequestInfo.sanitize (rc : RequestConfig) (r : RequestInfo) : RequestInfo :=
  { r with
    cgi_data := sanitize_string_map rc r.cgi_data
    params := sanitize_string_map rc r.params
    session := sanitize_string_map rc r.session
    context := sanitize_json_map rc r.context }

/-- `Payload::sanitize` from `payload.rs`:
`self.request.as_mut().map(|req| req.sanitize())`. -/
def Payload.sanitize (rc : RequestConfig) (p : Payload) : Payload :=
  { p with request := p.request.map (RequestInfo.sanitize rc) }

/-! ## Plugins (`src/src/plugin.rs`) -/

/-- `PluginError` from `plugin.rs`. -/
inductive PluginError where
  | other (msg : Str)
  deriving DecidableEq

/-- A registered plugin: `decorate` takes the payload by `&mut` and
returns whether it claimed the payload, or a `PluginError`.  Mutations
made before an error persist, so the (possibly mutated) payload is
returned in both cases. -/
def Plugin := Payload → Payload × Except PluginError Bool

/-- `decorate_with_plugins` from `plugin.rs`: plugins run in
registration order; a plugin returning `Ok(true)` claims the payload
and stops the iteration; a plugin returning `Err(e)` makes the whole
call return `Err(e)` at once (the `?` operator).  The registry
read-lock is modelled as always acquired. -/
def decorate_with_plugins : List Plugin → Payload → Payload × Option PluginError
  | [], p => (p, none)
  | q :: qs, p =>
    match q p with
    | (p', .error e) => (p', some e)
    | (p', .ok true) => (p', none)
    | (p', .ok false) => decorate_with_plugins qs p'

/-- Modelled from the spec: the notify-level plugin step is absent from
this snapshot's `notify_internal` (`src/src/lib.rs` does not declare
`mod plugin`, so `decorate_with_plugins` has no caller under `src/`).
Per §4.6/§7 of the spec, a plugin error "is logged and reporting
continues": the reporting pipeline keeps the payload produced by
`decorate_with_plugins` and proceeds regardless of the error. -/
def notify_plugin_step (plugins : List Plugin) (p : Payload) : Payload :=
  (decorate_with_plugins plugins p).1

/-! ## Context (`src/src/context.rs`) -/

/-- The thread-local context cells of `context.rs`: the
`scoped_thread_local!` pointer `SCOPED_CONTEXT` (present exactly while
a `with` call is on the stack) and the `thread_local!` cell
`DEFAULT_CONTEXT`. -/
structure Ctx where
  SCOPED_CONTEXT : Option RequestInfo
  DEFAULT_CONTEXT : Option RequestInfo
  deriving DecidableEq

/-- `get` from `context.rs`: the scoped binding when one is set
(`SCOPED_CONTEXT.is_set()`), otherwise the default binding. -/
def Ctx.get (c : Ctx) : Option RequestInfo :=
  match c.SCOPED_CONTEXT with
  | some r => some r
  | none => c.DEFAULT_CONTEXT

/-- `set` from `context.rs`. -/
def Ctx.set (r : RequestInfo) (c : Ctx) : Ctx :=
  { c with DEFAULT_CONTEXT := some r }

/-- `unset` from `context.rs`. -/
def Ctx.unset (c : Ctx) : Ctx :=
  { c with DEFAULT_CONTEXT := none }

/-- `with` from `context.rs`, i.e. `scoped_tls`'s `set`: the previous
scoped pointer is saved, the new binding is installed for the duration
of `body`, and the saved pointer is restored when `body` returns *or
unwinds* (an RAII reset guard); the body's outcome, normal or panic, is
then passed through. -/
def Ctx.scopedWith {α : Type} (v : RequestInfo)
    (body : Ctx → Ctx × Except PanicValue α) (c : Ctx) :
    Ctx × Except PanicValue α :=
  let saved := c.SCOPED_CONTEXT
  let res := body { c with SCOPED_CONTEXT := some v }
  ({ res.1 with SCOPED_CONTEXT := saved }, res.2)

/-! ## Error taxonomy and transport (`src/src/lib.rs`) -/

/-- `HoneybadgerError` from `lib.rs`.  The `Backtrace` captured inside
each constructor and the wrapped transport/serde causes are capture
metadata with no bearing on control flow; they are not modelled. -/
inductive HoneybadgerError where
  | noReportData
  | noApiKey
  | couldNotAssemblePayload
  | httpRequestFailed
  | tooManyRequests
  | paymentRequired
  | forbidden
  | unknownResponse
  | responseDecodeFailed
  deriving DecidableEq

/-- `HoneybadgerResponse` from `lib.rs`: the decoded `{"id": ...}`
body, the id carried as a string. -/
structure HoneybadgerResponse where
  id : Str
  deriving DecidableEq

/-- The response interpretation at the end of `report` in `lib.rs`
(the `match resp.status()` and the following `resp.json()`).  `status`
is the numeric HTTP status; `parsed` models `resp.json()` — `some r`
when the body decodes to a `HoneybadgerResponse`, `none` when decoding
fails. -/
def handle_response (status : Nat) (parsed : Option HoneybadgerResponse) :
    Except HoneybadgerError HoneybadgerResponse :=
  if status = 429 ∨ status = 503 then .error .tooManyRequests
  else if status = 402 then .error .paymentRequired
  else if status = 403 then .error .forbidden
  else if status = 201 then
    match parsed with
    | some r => .ok r
    | none => .error .responseDecodeFailed
  else .error .unknownResponse

/-- The `report_data` gate computed at the top of `notify_internal`:
the explicit flag when set, otherwise `true` unless the configured
environment (empty when unset) is one of `test`, `development`,
`cucumber`. -/
def should_report (c : Config) : Bool :=
  match c.report_data with
  | some b => b
  | none =>
    ["test".data, "development".data, "cucumber".data].all
      (fun s => c.env.getD [] ≠ s)

/-- The `NotifierInfo` constant built in `notify_internal` (the crate
version baked in at build time is abstracted). -/
def notifier_info : NotifierInfo :=
  { name := "mightybadger-rust".data
    url := "https://github.com/qnighy/mightybadger-rs".data
    version := "CARGO_PKG_VERSION".data
    language := "rust".data }

/-- `notify_internal` from `lib.rs`.  The ambient inputs that the
source computes by side effect — the classified/backtraced `ErrorInfo`,
the `RequestInfo` fetched from the context, and the generated
`ServerInfo` — are passed as arguments, and the HTTP `POST` performed
by `report` is the `transport` argument.  The second component counts
how many network attempts were made. -/
def notify_internal (c : Config) (err : ErrorInfo) (req : Option RequestInfo)
    (server : ServerInfo)
    (transport : Payload → Except HoneybadgerError HoneybadgerResponse) :
    Except HoneybadgerError HoneybadgerResponse × Nat :=
  if should_report c = false then (.error .noReportData, 0)
  else
    match c.api_key with
    | none => (.error .noApiKey, 0)
    | some key =>
      let payload : Payload :=
        { api_key := key
          notifier := some notifier_info
          error := err
          request := req
          server := server }
      (transport (payload.sanitize c.request), 1)

/-! ## Backtrace parsing (`src/src/btparse.rs`) -/

/-- `BacktraceLine` from `btparse.rs` (`line : Option<u32>`). -/
structure BacktraceLine where
  line : Option Nat
  file : Option Str
  method : Str
  deriving DecidableEq

/-- Rust `char::is_digit(16)`. -/
def isHexDigitChar (c : Char) : Bool :=
  c.isDigit || ('a' ≤ c && c ≤ 'f') || ('A' ≤ c && c ≤ 'F')

/-- `str::trim_start` (leading whitespace removed). -/
def trimLeft (l : Str) : Str :=
  l.dropWhile Char.isWhitespace

/-- `str::trim` (whitespace removed on both sides). -/
def trimBoth (l : Str) : Str :=
  ((trimLeft l).reverse.dropWhile Char.isWhitespace).reverse

/-- Rust `<u32 as FromStr>::from_str`: an optional `+` sign followed by
one or more ASCII digits whose value fits in `u32`; anything else is a
parse error (`none`). -/
def parseU32 (s : Str) : Option Nat :=
  let digits := match s with
    | '+' :: rest => rest
    | _ => s
  if digits.isEmpty then none
  else if digits.all Char.isDigit then
    let v := digits.foldl (fun a c => a * 10 + (c.toNat - '0'.toNat)) 0
    if v < 2 ^ 32 then some v else none
  else none

/-- `line.rfind(':')` followed by the split into `line[..pos]` and
`line[pos + 1 ..]`: splits at the *last* colon, `none` when there is no
colon. -/
def splitAtLastColon : Str → Option (Str × Str)
  | [] => none
  | c :: rest =>
    match splitAtLastColon rest with
    | some (f, ds) => some (c :: f, ds)
    | none => if c = ':' then some ([], rest) else none

/-- How the per-line loop of `parse` classifies one input line. -/
inductive LineKind where
  | skip
  | loc (file : Str) (line : Nat)
  | method (m : Str)
  deriving DecidableEq

/-- The body of the `for line in bt.lines()` loop of `parse`, up to the
flush/buffer bookkeeping: trim the line, pass over the
`"stack backtrace:"` header, strip a `<frameno>:` prefix (first
character numeric: drop through the first colon, or everything when
there is none), a `0x<hex>` pointer token, and a `-` marker, then
interpret the remainder — empty: nothing; `at <file>:<line>` (line
number from the last colon, defaulting to 1 when absent or
unparseable): a location; anything else: a method name.
`char::is_numeric` is modelled on its ASCII fragment (`Char.isDigit`);
the trace format only emits ASCII frame numbers. -/
def processLine (raw : Str) : LineKind :=
  let line := trimBoth raw
  if line = "stack backtrace:".data then .skip
  else
    let line := if (line.head?.getD ' ').isDigit then
        (line.dropWhile (fun c => c ≠ ':')).drop 1
      else line
    let line := trimLeft line
    let line := if ['0', 'x'].isPrefixOf line then
        (line.drop 2).dropWhile isHexDigitChar
      else line
    let line := trimLeft line
    let line := if line.head? = some '-' then line.drop 1 else line
    let line := trimLeft line
    if line = [] then .skip
    else if "at ".data.isPrefixOf line then
      let rest := trimLeft (line.drop 3)
      match splitAtLastColon rest with
      | some (f, ds) => .loc f ((parseU32 ds).getD 1)
      | none => .loc rest 1
    else .method line

/-- The mutable state of `parse`: the buffered location and method
lines and the entries emitted so far. -/
structure PState where
  last_file : Option (Str × Nat)
  last_method : Option Str
  acc : List BacktraceLine
  deriving DecidableEq

/-- The `flush!` macro of `parse`: when a method line is buffered, emit
it as one entry together with the buffered location (if any); in every
case both buffers are cleared (`take()`). -/
def flush (s : PState) : PState :=
  match s.last_method with
  | some m =>
    let fl := match s.last_file with
      | some (f, n) => (some f, some n)
      | none => (none, none)
    { last_file := none, last_method := none
      acc := s.acc ++ [{ line := fl.2, file := fl.1, method := m }] }
  | none => { s with last_file := none }

/-- One iteration of the loop of `parse`: a location line overwrites
the buffered location; a method line flushes the previous buffered
entry and becomes the buffered method; noise lines do nothing. -/
def pstep (s : PState) (raw : Str) : PState :=
  match processLine raw with
  | .skip => s
  | .loc f n => { s with last_file := some (f, n) }
  | .method m =>
    let s := flush s
    { s with last_method := some m }

/-- `parse` from `btparse.rs`, taking the trace text already split into
its lines (the source applies `str::lines` to the rendered
`Backtrace`): fold the loop body over the lines and flush the final
buffered entry. -/
def parse (lines : List Str) : List BacktraceLine :=
  (flush (lines.foldl pstep { last_file := none, last_method := none, acc := [] })).acc

/-- The fixed `trim_paths` denylist of `trim_backtrace`. -/
def trim_paths : List Str :=
  [ "honeybadger::notify::".data
  , "backtrace::backtrace::capture::Backtrace::new::".data
  , "backtrace::backtrace::capture::Backtrace::new_unresolved::".data
  , "failure::backtrace::Backtrace::new::".data
  , "<failure::backtrace::Backtrace as core::default::Default>::default::".data
  , "failure::failure::error_message::err_msg::".data
  , "<failure::context::Context<D>>::new::".data
  , "std::panicking::begin_panic::".data
  , "core::panicking::panic::".data
  , "core::panicking::panic_bounds_check::".data
  , "<core::option::Option<T>>::unwrap::".data
  , "<core::option::Option<T>>::expect::".data
  , "<core::result::Result<T, E>>::unwrap::".data
  , "<core::result::Result<T, E>>::expect::".data
  , "<core::result::Result<T, E>>::unwrap_err::".data
  , "<core::result::Result<T, E>>::expect_err::".data ]

/-- Whether a frame's method name starts with one of the `trim_paths`
prefixes (the predicate inside `rposition`). -/
def isTrimTarget (bl : BacktraceLine) : Bool :=
  trim_paths.any (fun tp => tp.isPrefixOf bl.method)

/-- `Iterator::rposition`: the index of the *last* element satisfying
the predicate. -/
def rposition {α : Type} (p : α → Bool) : List α → Option Nat
  | [] => none
  | a :: as =>
    match rposition p as with
    | some k => some (k + 1)
    | none => if p a then some 0 else none

/-- `trim_backtrace` from `btparse.rs`:
`drain(.. rposition(..).map(+1).unwrap_or(0))` — drop every frame up to
and including the last denylist match. -/
def trim_backtrace (bt_lines : List BacktraceLine) : List BacktraceLine :=
  bt_lines.drop (((rposition isTrimTarget bt_lines).map (· + 1)).getD 0)

/-- The file system seen by `decorate`: a path either opens to the list
of its lines or fails to open (`File::open` error). -/
def FileSys := Str → Option (List Str)

/-- The `for lineno in 0..upto` read loop of `decorate`, recursing on
the remaining iteration count `upto - lineno`: each step reads the next
line (EOF ends the loop — `read_line` returning 0 bytes), and lines
with `lineno >= skip` are recorded under key `lineno + 1`
(`lineno < upto <= u32::MAX`, so `saturating_add(1)` is plain
addition). -/
def readWindowLoop (content : List Str) (skip : Nat) : Nat → Nat → List (Nat × Str)
  | _, 0 => []
  | lineno, rem + 1 =>
    match content.get? lineno with
    | none => []
    | some l =>
      (if skip ≤ lineno then [(lineno + 1, l)] else []) ++
        readWindowLoop content skip (lineno + 1) rem

/-- The per-frame body of `decorate` from `btparse.rs`: when the frame
has both a line and a file and the file opens, read the window
`[line-2, line+3)` of 0-based lines (computed with saturating `u32`
arithmetic: `line0 = line.saturating_sub(1)`,
`skip = line0.saturating_sub(2)`,
`upto = line0.saturating_add(3)` capped at `u32::MAX = 2^32 - 1`) into
the source map; otherwise the frame passes through with no source.
`read_line` keeps the trailing newline in the stored text; the line
terminator is abstracted away here, the stored text being the line
itself. -/
def decorateEntry (fs : FileSys) (bl : BacktraceLine) : BacktraceEntry :=
  let source := match bl.line, bl.file with
    | some line, some file =>
      let line0 := line - 1
      let skip := line0 - 2
      let upto := min (line0 + 3) (2 ^ 32 - 1)
      match fs file with
      | some content => some (readWindowLoop content skip 0 upto)
      | none => none
    | _, _ => none
  { number := bl.line.map (fun n => (Nat.repr n).data)
    file := bl.file
    method := bl.method
    source := source }

/-- `decorate` from `btparse.rs`. -/
def decorate (fs : FileSys) (bt_lines : List BacktraceLine) : List BacktraceEntry :=
  bt_lines.map (decorateEntry fs)

/-! ## Concrete instances used to exercise the theorems -/

/-- `Config::default()`. -/
def defaultConfig : Config :=
  { api_key := none, env := none, report_data := none, root := none
    revision := none, hostname := none
    connection := { secure := none, host := none, port := none }
    request := { filter_keys := none } }

/-- An `ErrorInfo` with every field empty. -/
def err0 : ErrorInfo :=
  { token := none, class_ := [], message := [], tags := []
    fingerprint := [], backtrace := none, causes := [] }

/-- A `ServerInfo` with every field empty. -/
def server0 : ServerInfo :=
  { project_root := none, revision := none, environment_name := none
    hostname := none, stats := { mem := none, load := none }
    time := [], pid := 0 }

/-- A payload with every field empty. -/
def payload0 : Payload :=
  { api_key := [], notifier := none, error := err0, request := none, server := server0 }

/-- A transport double that always fails. -/
def transport0 : Payload → Except HoneybadgerError HoneybadgerResponse :=
  fun _ => .error .httpRequestFailed

/-- A `RequestInfo` with every field empty. -/
def req0 : RequestInfo :=
  { url := [], cgi_data := [], params := [], component := [], action := []
    session := [], context := [], local_variables := [] }

/-- A context with neither binding present. -/
def ctx0 : Ctx :=
  { SCOPED_CONTEXT := none, DEFAULT_CONTEXT := none }

/-- A plugin whose `decorate` fails without touching the payload. -/
def plugin_fail : Plugin :=
  fun p => (p, .error (.other "plugin boom".data))

/-- A plugin whose `decorate` records its contribution in the
payload's `component` field and declines to claim the payload. -/
def plugin_set : Plugin :=
  fun p => ({ p with request := some { req0 with component := "set-by-plugin".data } }, .ok false)

/-- The spec-side filtering condition of the sanitizer: the key
contains one of the configured (or default) sensitive-key substrings
(`List.IsInfix` is substring occurrence). -/
def matches_filter (rc : RequestConfig) (key : Str) : Prop :=
  ∃ s ∈ rc.filter_keys.getD ["password".data, "HTTP_AUTHORIZATION".data], s <:+: key

/-! ## Well-formed trace lines (used to state the parser claim) -/

/-- A line the parser loop takes verbatim as a method name: non-empty,
no whitespace at either edge (so `trim` leaves it alone), not the
`"stack backtrace:"` header, and not opening with any of the stripped
markers (a numeric frame prefix, a `0x` pointer, a `-`, or `"at "`). -/
def isPlainMethodLine (m : Str) : Bool :=
  !m.isEmpty &&
  !(m.head?.getD ' ').isWhitespace &&
  !(m.getLast?.getD ' ').isWhitespace &&
  !(m == "stack backtrace:".data) &&
  !(m.head?.getD ' ').isDigit &&
  !(['0', 'x'].isPrefixOf m) &&
  !(m.head? == some '-') &&
  !("at ".data.isPrefixOf m)

/-- A well-formed tail of an `at <file>:<line>` location line, given as
the file part and the text after the last colon: the file part must not
open with whitespace (`trim_start` would eat it), the tail must not
contain a colon (so the split point is the rendered colon), and the
line must not end in whitespace (`trim` would eat it). -/
def isLocTail (f ds : Str) : Bool :=
  !(((f ++ ':' :: ds).head?.getD ' ').isWhitespace) &&
  !(((f ++ ':' :: ds).getLast?.getD ' ').isWhitespace) &&
  !(ds.contains ':')

/-- Renders an `at <file>:<line>` location line. -/
def mkLocLine (f ds : Str) : Str :=
  'a' :: 't' :: ' ' :: (f ++ ':' :: ds)

/-- The location line attached to one method line, if any. -/
def locLines (o : Option (Str × Str)) : List Str :=
  match o with
  | some (f, ds) => [mkLocLine f ds]
  | none => []

/-- Renders a trace: one method line per entry, each followed by its
location line when it has one. -/
def renderPairs (ps : List (Str × Option (Str × Str))) : List Str :=
  ps.flatMap (fun p => p.1 :: locLines p.2)

/-- The entry the parser is expected to produce for one
method/location pair: the file text before the last colon and the
parsed line number (1 when unparseable), or no location at all. -/
def mkEntry (p : Str × Option (Str × Str)) : BacktraceLine :=
  { line := p.2.map (fun q => (parseU32 q.2).getD 1)
    file := p.2.map Prod.fst
    method := p.1 }

/-- An eight-line source file. -/
def small_content : List Str :=
  ["a1".data, "a2".data, "a3".data, "a4".data,
   "a5".data, "a6".data, "a7".data, "a8".data]

/-- A file system exposing only `small.rs`. -/
def small_fs : FileSys :=
  fun p => if p = "small.rs".data then some small_content else none

/-- A file long enough to put `u32::MAX + 3` lines past the reported
line `u32::MAX`. -/
def big_content : List Str :=
  List.replicate (2 ^ 32 + 2) ['a']

/-- A file system exposing only `big.rs`. -/
def big_fs : FileSys :=
  fun p => if p = "big.rs".data then some big_content else none

/-! ## C1: `configure` rolls back on a panicking mutator -/

/-- C1: if the mutator passed to `configure` panics, then after
`configure` unwinds `read_config()` returns exactly the configuration
that was current before the call (the whole `Config` value is
unchanged, so no field is partially updated), and the panic is
propagated to the caller after the rollback. -/
theorem configure_panic_rollback (f : Config → Except PanicValue Config)
    (s : ConfigStore) (e : PanicValue) (h : f s.CONFIG_PROXY = .error e) :
    read_config (configure f s).1 = read_config s ∧ (configure f s).2 = some e := by
  simp [configure, read_config, h]

theorem configure_panic_rollback_witness :
    read_config (configure (fun _ => .error "boom".data)
      ⟨defaultConfig, defaultConfig⟩).1 = read_config ⟨defaultConfig, defaultConfig⟩ ∧
    (configure (fun _ => .error "boom".data) ⟨defaultConfig, defaultConfig⟩).2 =
      some "boom".data :=
  configure_panic_rollback (fun _ => .error "boom".data) ⟨defaultConfig, defaultConfig⟩
    "boom".data rfl

/-! ## C2: a failing plugin aborts the decoration loop -/

/-- C2 counterexample: the claim says a failing plugin "is merely
skipped" and that assembly proceeds "with the remaining plugins'
contributions".  With the registry `[plugin_fail, plugin_set]`,
`decorate_with_plugins` instead returns the plugin error at once, and
the payload the (spec-modelled) pipeline continues with lacks
`plugin_set`'s contribution — which `plugin_set` alone would have
supplied. -/
theorem decorate_with_plugins_abort_cex :
    (decorate_with_plugins [plugin_fail, plugin_set] payload0).2 =
      some (.other "plugin boom".data) ∧
    (notify_plugin_step [plugin_fail, plugin_set] payload0).request = none ∧
    (notify_plugin_step [plugin_set] payload0).request =
      some { req0 with component := "set-by-plugin".data } := by
  exact ⟨rfl, rfl, rfl⟩

/-- C2 (amended): when a plugin's `decorate` fails, the iteration
aborts at that plugin: `decorate_with_plugins` surfaces that plugin's
error as a distinct `PluginError`, the plugins after it are never run
(the result does not depend on them), and the spec-modelled reporting
pipeline continues with the payload as it stood at the failure. -/
theorem decorate_with_plugins_abort (q : Plugin) (qs : List Plugin)
    (p p' : Payload) (e : PluginError) (h : q p = (p', .error e)) :
    decorate_with_plugins (q :: qs) p = (p', some e) ∧
    notify_plugin_step (q :: qs) p = p' := by
  simp [decorate_with_plugins, notify_plugin_step, h]

theorem decorate_with_plugins_abort_witness :
    decorate_with_plugins [plugin_fail, plugin_set] payload0 =
      (payload0, some (.other "plugin boom".data)) ∧
    notify_plugin_step [plugin_fail, plugin_set] payload0 = payload0 :=
  decorate_with_plugins_abort plugin_fail [plugin_set] payload0 payload0
    (.other "plugin boom".data) rfl

/-! ## C3: the `report_data` gate -/

/-- C3: with `report_data` explicitly `false`, or unset while the
configured environment is in the fixed exclusion set
`{test, development, cucumber}`, `notify_internal` terminates with
`NoReportData` and performs no network attempt; otherwise reporting
proceeds past the gate — to `NoApiKey` when the key is missing, and to
exactly one transport attempt on the sanitized payload when it is
present. -/
theorem notify_gate_spec (c : Config) (err : ErrorInfo) (req : Option RequestInfo)
    (server : ServerInfo)
    (transport : Payload → Except HoneybadgerError HoneybadgerResponse) :
    ((c.report_data = some false ∨
        (c.report_data = none ∧
          c.env.getD [] ∈ ["test".data, "development".data, "cucumber".data])) →
      notify_internal c err req server transport = (.error .noReportData, 0)) ∧
    ((c.report_data = some true ∨
        (c.report_data = none ∧
          c.env.getD [] ∉ ["test".data, "development".data, "cucumber".data])) →
      (c.api_key = none →
        notify_internal c err req server transport = (.error .noApiKey, 0)) ∧
      (∀ key, c.api_key = some key →
        notify_internal c err req server transport =
          (transport (Payload.sanitize c.request
            { api_key := key, notifier := some notifier_info, error := err
              request := req, server := server }), 1))) := by
  constructor
  · intro h
    have hgate : should_report c = false := by
      rcases h with h | ⟨h1, h2⟩
      · simp [should_report, h]
      · simp only [should_report, h1]
        apply Bool.eq_false_iff.mpr
        intro hall
        rw [List.all_eq_true] at hall
        have := hall _ h2
        simp at this
    simp [notify_internal, hgate]
  · intro h
    have hgate : should_report c = true := by
      rcases h with h | ⟨h1, h2⟩
      · simp [should_report, h]
      · simp only [should_report, h1]
        rw [List.all_eq_true]
        intro s hs
        simp only [decide_eq_true_eq]
        intro heq
        exact h2 (heq ▸ hs)
    constructor
    · intro hkey
      simp [notify_internal, hgate, hkey]
    · intro key hkey
      simp [notify_internal, hgate, hkey]

theorem notify_gate_spec_witness :
    notify_internal { defaultConfig with report_data := some false }
      err0 none server0 transport0 = (.error .noReportData, 0) ∧
    notify_internal { defaultConfig with report_data := some true, api_key := some "k".data }
      err0 none server0 transport0 =
      (transport0 (Payload.sanitize
        { defaultConfig with report_data := some true, api_key := some "k".data }.request
        { api_key := "k".data, notifier := some notifier_info, error := err0
          request := none, server := server0 }), 1) :=
  ⟨(notify_gate_spec _ err0 none server0 transport0).1 (Or.inl rfl),
   ((notify_gate_spec _ err0 none server0 transport0).2 (Or.inl rfl)).2 "k".data rfl⟩

/-! ## C4: transport status mapping -/

/-- C4: an HTTP 429 or 503 (unavailable) response maps to
`TooManyRequests`; 402 to `PaymentRequired`; 403 to `Forbidden`; 201
with a decodable body surfaces success carrying the body's id; 201
with an undecodable body maps to `ResponseDecodeFailed`; any other
status maps to `UnknownResponse`. -/
theorem report_status_mapping (status : Nat) (parsed : Option HoneybadgerResponse) :
    ((status = 429 ∨ status = 503) →
      handle_response status parsed = .error .tooManyRequests) ∧
    (status = 402 → handle_response status parsed = .error .paymentRequired) ∧
    (status = 403 → handle_response status parsed = .error .forbidden) ∧
    (∀ r, status = 201 → parsed = some r → handle_response status parsed = .ok r) ∧
    (status = 201 → parsed = none →
      handle_response status parsed = .error .responseDecodeFailed) ∧
    (status ≠ 429 → status ≠ 503 → status ≠ 402 → status ≠ 403 → status ≠ 201 →
      handle_response status parsed = .error .unknownResponse) := by
  refine ⟨?_, ?_, ?_, ?_, ?_, ?_⟩
  · rintro (rfl | rfl) <;> rfl
  · rintro rfl; rfl
  · rintro rfl; rfl
  · rintro r rfl rfl; rfl
  · rintro rfl rfl; rfl
  · intro h1 h2 h3 h4 h5
    simp [handle_response, h1, h2, h3, h4, h5]

theorem report_status_mapping_witness :
    handle_response 429 none = .error .tooManyRequests ∧
    handle_response 503 none = .error .tooManyRequests ∧
    handle_response 402 none = .error .paymentRequired ∧
    handle_response 403 none = .error .forbidden ∧
    handle_response 201 (some ⟨"a1b2".data⟩) = .ok ⟨"a1b2".data⟩ ∧
    handle_response 201 none = .error .responseDecodeFailed ∧
    handle_response 500 none = .error .unknownResponse :=
  ⟨(report_status_mapping 429 none).1 (Or.inl rfl),
   (report_status_mapping 503 none).1 (Or.inr rfl),
   (report_status_mapping 402 none).2.1 rfl,
   (report_status_mapping 403 none).2.2.1 rfl,
   (report_status_mapping 201 (some ⟨"a1b2".data⟩)).2.2.2.1 ⟨"a1b2".data⟩ rfl rfl,
   (report_status_mapping 201 none).2.2.2.2.1 rfl rfl,
   (report_status_mapping 500 none).2.2.2.2.2 (by decide) (by decide) (by decide)
     (by decide) (by decide)⟩

/-! ## C5: the backtrace trimmer -/

theorem rposition_eq_none {α : Type} (p : α → Bool) (l : List α)
    (h : ∀ a ∈ l, p a = false) : rposition p l = none := by
  induction l with
  | nil => rfl
  | cons a as ih =>
    simp [rposition, ih (fun x hx => h x (List.mem_cons_of_mem a hx)),
      h a (List.mem_cons_self a as)]

theorem rposition_eq_none_idx {α : Type} (p : α → Bool) (l : List α)
    (h : ∀ j (hj : j < l.length), p (l.get ⟨j, hj⟩) = false) : rposition p l = none := by
  induction l with
  | nil => rfl
  | cons a as ih =>
    have htail : rposition p as = none :=
      ih (fun j hj => h (j + 1) (Nat.succ_lt_succ hj))
    have h0 : p a = false := by simpa using h 0 (Nat.succ_pos _)
    simp [rposition, htail, h0]

theorem rposition_eq_some {α : Type} (p : α → Bool) (l : List α) (k : Nat)
    (hk : k < l.length) (hp : p (l.get ⟨k, hk⟩) = true)
    (hafter : ∀ j (hj : j < l.length), k < j → p (l.get ⟨j, hj⟩) = false) :
    rposition p l = some k := by
  induction l generalizing k with
  | nil => simp at hk
  | cons a as ih =>
    cases k with
    | zero =>
      have hnone : rposition p as = none :=
        rposition_eq_none_idx p as
          (fun j hj => hafter (j + 1) (Nat.succ_lt_succ hj) (Nat.succ_pos j))
      simpa [rposition, hnone] using hp
    | succ k' =>
      have hk' : k' < as.length := Nat.lt_of_succ_lt_succ hk
      have hrec : rposition p as = some k' :=
        ih k' hk' hp
          (fun j hj hgt => hafter (j + 1) (Nat.succ_lt_succ hj) (Nat.succ_lt_succ hgt))
      simp [rposition, hrec]

/-- C5: if the last frame whose method starts with a denylist prefix is
at index `k`, the trimmer returns the slice from `k + 1` on; with no
matching frame it returns the input unchanged. -/
theorem trim_backtrace_spec (l : List BacktraceLine) :
    (∀ k (hk : k < l.length), isTrimTarget (l.get ⟨k, hk⟩) = true →
      (∀ j (hj : j < l.length), k < j → isTrimTarget (l.get ⟨j, hj⟩) = false) →
      trim_backtrace l = l.drop (k + 1)) ∧
    ((∀ bl ∈ l, isTrimTarget bl = false) → trim_backtrace l = l) := by
  constructor
  · intro k hk hp hafter
    unfold trim_backtrace
    rw [rposition_eq_some isTrimTarget l k hk hp hafter]
    rfl
  · intro h
    unfold trim_backtrace
    rw [rposition_eq_none isTrimTarget l h]
    rfl

theorem trim_backtrace_spec_witness :
    trim_backtrace
      [⟨none, none, "user::outer::h1".data⟩,
       ⟨none, none, "core::panicking::panic::h0".data⟩,
       ⟨none, none, "user::main::h0".data⟩] =
      [⟨none, none, "user::main::h0".data⟩] ∧
    trim_backtrace [⟨none, none, "user::main::h0".data⟩] =
      [⟨none, none, "user::main::h0".data⟩] := by
  constructor
  · exact (trim_backtrace_spec _).1 1 (by decide) (by decide) (by decide)
  · exact (trim_backtrace_spec _).2 (by decide)

/-! ## C8: the context propagator -/

/-- C8 counterexample: the claim says that for *every* body,
immediately after `with(v, body)` returns, `get()` returns exactly what
it returned before the call.  A body that invokes `set` refutes this:
starting from an empty context, after `with(req0, || set(req0))` the
call `get()` returns the new default binding, not the pre-call `None`. -/
theorem context_with_leak_cex :
    Ctx.get (Ctx.scopedWith req0 (fun c => (Ctx.set req0 c, Except.ok ())) ctx0).1 ≠
      Ctx.get ctx0 := by
  decide

/-- C8 (amended): `get()` returns the scoped binding when one is
active, else the default binding if set, else nothing; at entry to
`with(v, body)` the body runs with `get()` returning `v`; and when
`with` returns (or unwinds) the scoped slot is restored exactly to its
pre-call state, so `get()` returns its pre-call value whenever the body
left the default binding unchanged. -/
theorem context_with_get_spec {α : Type} (v : RequestInfo)
    (body : Ctx → Ctx × Except PanicValue α) (c : Ctx) :
    (∀ r, c.SCOPED_CONTEXT = some r → c.get = some r) ∧
    (c.SCOPED_CONTEXT = none → c.get = c.DEFAULT_CONTEXT) ∧
    Ctx.get { c with SCOPED_CONTEXT := some v } = some v ∧
    (Ctx.scopedWith v body c).1.SCOPED_CONTEXT = c.SCOPED_CONTEXT ∧
    ((body { c with SCOPED_CONTEXT := some v }).1.DEFAULT_CONTEXT = c.DEFAULT_CONTEXT →
      Ctx.get (Ctx.scopedWith v body c).1 = c.get) := by
  refine ⟨?_, ?_, rfl, rfl, ?_⟩
  · intro r hr
    simp [Ctx.get, hr]
  · intro hr
    simp [Ctx.get, hr]
  · intro hdef
    cases hs : c.SCOPED_CONTEXT with
    | none => simp [Ctx.get, Ctx.scopedWith, hs, hdef]
    | some r => simp [Ctx.get, Ctx.scopedWith, hs]

theorem context_with_get_spec_witness :
    Ctx.get { ctx0 with SCOPED_CONTEXT := some req0 } = some req0 ∧
    (Ctx.scopedWith req0 (fun c => (c, Except.ok 0)) ctx0).1.SCOPED_CONTEXT =
      ctx0.SCOPED_CONTEXT ∧
    Ctx.get (Ctx.scopedWith req0 (fun c => (c, Except.ok 0)) ctx0).1 = Ctx.get ctx0 :=
  ⟨(context_with_get_spec req0 (fun c => (c, Except.ok (0 : Nat))) ctx0).2.2.1,
   (context_with_get_spec req0 (fun c => (c, Except.ok (0 : Nat))) ctx0).2.2.2.1,
   (context_with_get_spec req0 (fun c => (c, Except.ok (0 : Nat))) ctx0).2.2.2.2 rfl⟩

/-! ## C9: sanitization of the request maps -/

theorem is_substring_iff (n h : Str) : is_substring n h = true ↔ n <:+: h := by
  induction h with
  | nil => simp [is_substring, List.isEmpty_iff]
  | cons c t ih =>
    simp [is_substring, ih, List.infix_cons_iff, List.isPrefixOf_iff_prefix]

theorem filter_key_iff (rc : RequestConfig) (key : Str) :
    rc.filter_key key = true ↔ matches_filter rc key := by
  cases h : rc.filter_keys with
  | none =>
    simp [RequestConfig.filter_key, matches_filter, h, List.any_eq_true, is_substring_iff]
  | some ks =>
    simp [RequestConfig.filter_key, matches_filter, h, List.any_eq_true, is_substring_iff]

/-- C9: sanitization replaces, in each of the `cgi_data`, `params`,
`session` and `context` maps, the value of every key containing a
configured (or default, including `"HTTP_AUTHORIZATION"`) sensitive-key
substring by the fixed marker `"[FILTERED]"`, and leaves every entry
whose key matches no filter substring unchanged. -/
theorem request_sanitize_spec (rc : RequestConfig) (r : RequestInfo) (k : Str) :
    (rc.filter_key k = true ↔ matches_filter rc k) ∧
    (∀ v, (k, v) ∈ r.cgi_data →
      (matches_filter rc k → (k, FILTERED) ∈ (r.sanitize rc).cgi_data) ∧
      (¬ matches_filter rc k → (k, v) ∈ (r.sanitize rc).cgi_data)) ∧
    (∀ v, (k, v) ∈ r.params →
      (matches_filter rc k → (k, FILTERED) ∈ (r.sanitize rc).params) ∧
      (¬ matches_filter rc k → (k, v) ∈ (r.sanitize rc).params)) ∧
    (∀ v, (k, v) ∈ r.session →
      (matches_filter rc k → (k, FILTERED) ∈ (r.sanitize rc).session) ∧
      (¬ matches_filter rc k → (k, v) ∈ (r.sanitize rc).session)) ∧
    (∀ v, (k, v) ∈ r.context →
      (matches_filter rc k →
        (k, JsonValue.str FILTERED) ∈ (r.sanitize rc).context) ∧
      (¬ matches_filter rc k → (k, v) ∈ (r.sanitize rc).context)) := by
  have hfk_of : matches_filter rc k → rc.filter_key k = true :=
    fun hm => (filter_key_iff rc k).mpr hm
  have hfk_not : ¬ matches_filter rc k → rc.filter_key k = false := by
    intro hm
    cases hb : rc.filter_key k
    · rfl
    · exact absurd ((filter_key_iff rc k).mp hb) hm
  have hstr : ∀ (m : List (Str × Str)) v, (k, v) ∈ m →
      (matches_filter rc k → (k, FILTERED) ∈ sanitize_string_map rc m) ∧
      (¬ matches_filter rc k → (k, v) ∈ sanitize_string_map rc m) := by
    intro m v hv
    constructor
    · intro hm
      unfold sanitize_string_map
      exact List.mem_map.mpr ⟨(k, v), hv, by simp [hfk_of hm]⟩
    · intro hm
      unfold sanitize_string_map
      exact List.mem_map.mpr ⟨(k, v), hv, by simp [hfk_not hm]⟩
  refine ⟨filter_key_iff rc k, fun v hv => hstr _ v hv, fun v hv => hstr _ v hv,
    fun v hv => hstr _ v hv, fun v hv => ?_⟩
  constructor
  · intro hm
    show (k, JsonValue.str FILTERED) ∈ sanitize_json_map rc r.context
    unfold sanitize_json_map
    exact List.mem_map.mpr ⟨(k, v), hv, by simp [hfk_of hm]⟩
  · intro hm
    show (k, v) ∈ sanitize_json_map rc r.context
    unfold sanitize_json_map
    exact List.mem_map.mpr ⟨(k, v), hv, by simp [hfk_not hm]⟩

theorem request_sanitize_spec_witness :
    ("HTTP_AUTHORIZATION".data, FILTERED) ∈
      (RequestInfo.sanitize { filter_keys := none }
        { req0 with
          cgi_data := [("HTTP_AUTHORIZATION".data, "secret".data),
                       ("HOME".data, "/root".data)] }).cgi_data ∧
    ("HOME".data, "/root".data) ∈
      (RequestInfo.sanitize { filter_keys := none }
        { req0 with
          cgi_data := [("HTTP_AUTHORIZATION".data, "secret".data),
                       ("HOME".data, "/root".data)] }).cgi_data := by
  constructor
  · exact ((request_sanitize_spec { filter_keys := none } _ _).2.1 "secret".data
      (by simp)).1 ⟨"HTTP_AUTHORIZATION".data, by simp, List.infix_refl _⟩
  · exact ((request_sanitize_spec { filter_keys := none } _ _).2.1 "/root".data
      (by simp)).2 (by
        rintro ⟨s, hs, hinf⟩
        simp only [Option.getD, List.mem_cons, List.mem_singleton] at hs
        rcases hs with rfl | rfl | h
        · exact absurd ((is_substring_iff _ _).mpr hinf) (by decide)
        · exact absurd ((is_substring_iff _ _).mpr hinf) (by decide)
        · simp at h)

/-! ## C10: sanitization touches nothing outside the four maps -/

/-- C10: `Payload::sanitize` modifies only the `cgi_data`, `params`,
`session` and `context` maps of the request info; the `api_key`,
`notifier`, `error` and `server` parts, and the request's `url`,
`component`, `action` and `local_variables`, are all left unchanged —
whatever their keys contain. -/
theorem payload_sanitize_frame (rc : RequestConfig) (p : Payload) :
    (p.sanitize rc).api_key = p.api_key ∧
    (p.sanitize rc).notifier = p.notifier ∧
    (p.sanitize rc).error = p.error ∧
    (p.sanitize rc).server = p.server ∧
    (p.sanitize rc).request.map (fun r => r.url) = p.request.map (fun r => r.url) ∧
    (p.sanitize rc).request.map (fun r => r.component) =
      p.request.map (fun r => r.component) ∧
    (p.sanitize rc).request.map (fun r => r.action) = p.request.map (fun r => r.action) ∧
    (p.sanitize rc).request.map (fun r => r.local_variables) =
      p.request.map (fun r => r.local_variables) ∧
    (p.sanitize rc).request.isSome = p.request.isSome := by
  cases hr : p.request with
  | none => simp [Payload.sanitize, hr]
  | some r => simp [Payload.sanitize, hr, RequestInfo.sanitize]

/-! ## C7: the source decorator window -/

theorem readWindowLoop_ge (content : List Str) (skip : Nat) :
    ∀ (rem lineno : Nat), skip ≤ lineno → lineno + rem ≤ content.length →
      readWindowLoop content skip lineno rem =
        (List.range' lineno rem).map (fun i => (i + 1, content.getD i [])) := by
  intro rem
  induction rem with
  | zero => intro lineno _ _; rfl
  | succ rem ih =>
    intro lineno hskip hlen
    have hlt : lineno < content.length := by omega
    have hx : content.get? lineno = some (content.get ⟨lineno, hlt⟩) := List.get?_eq_get hlt
    have hgd : content.getD lineno [] = content.get ⟨lineno, hlt⟩ := by
      rw [List.getD_eq_getElem?_getD, List.getElem?_eq_getElem hlt]
      rfl
    simp only [readWindowLoop, hx, if_pos hskip, List.range'_succ, List.map_cons, hgd,
      List.singleton_append]
    rw [ih (lineno + 1) (by omega) (by omega)]

theorem readWindowLoop_before (content : List Str) (skip : Nat) :
    ∀ (rem lineno : Nat), lineno ≤ skip → skip ≤ lineno + rem →
      lineno + rem ≤ content.length →
      readWindowLoop content skip lineno rem =
        readWindowLoop content skip skip (lineno + rem - skip) := by
  intro rem
  induction rem with
  | zero =>
    intro lineno h1 h2 _
    obtain rfl : lineno = skip := by omega
    simp
  | succ rem ih =>
    intro lineno h1 h2 hlen
    rcases eq_or_lt_of_le h1 with heq | hlt
    · subst heq
      have e : lineno + (rem + 1) - lineno = rem + 1 := by omega
      rw [e]
    · have hltlen : lineno < content.length := by omega
      have hx : content.get? lineno = some (content.get ⟨lineno, hltlen⟩) :=
        List.get?_eq_get hltlen
      have hnot : ¬ skip ≤ lineno := by omega
      simp only [readWindowLoop, hx, if_neg hnot, List.nil_append]
      rw [ih (lineno + 1) (by omega) (by omega) (by omega)]
      congr 1
      omega

theorem readWindowLoop_window (content : List Str) (skip rem : Nat)
    (hs : skip ≤ rem) (hlen : rem ≤ content.length) :
    readWindowLoop content skip 0 rem =
      (List.range' skip (rem - skip)).map (fun i => (i + 1, content.getD i [])) := by
  rw [readWindowLoop_before content skip rem 0 (Nat.zero_le _) (by omega) (by omega)]
  have e : 0 + rem - skip = rem - skip := by omega
  rw [e, readWindowLoop_ge content skip (rem - skip) skip le_rfl (by omega)]

theorem window_reindex (content : List Str) (a n : Nat) :
    (List.range' a n).map (fun i => (i + 1, content.getD i [])) =
      (List.range' (a + 1) n).map (fun k => (k, content.getD (k - 1) [])) := by
  induction n generalizing a with
  | zero => rfl
  | succ n ih =>
    rw [List.range'_succ, List.range'_succ, List.map_cons, List.map_cons, ih (a + 1)]
    simp

/-- The decorator's window, in the raw saturating-`u32` form of the
code: keys run from `skip + 1 = (L-1) - 2 + 1` for
`upto - skip = min ((L-1) + 3) (2^32 - 1) - ((L-1) - 2)` entries. -/
theorem decorate_source_eq (fs : FileSys) (file : Str) (content : List Str)
    (m : Str) (L : Nat) (h1 : 1 ≤ L) (h2 : L < 2 ^ 32)
    (hfs : fs file = some content)
    (hlen : min (L - 1 + 3) (2 ^ 32 - 1) ≤ content.length) :
    (decorateEntry fs { line := some L, file := some file, method := m }).source =
      some ((List.range' (L - 1 - 2 + 1)
          (min (L - 1 + 3) (2 ^ 32 - 1) - (L - 1 - 2))).map
        (fun k => (k, content.getD (k - 1) []))) := by
  have hM : (2 : ℕ) ^ 32 = 4294967296 := by norm_num
  have hs : L - 1 - 2 ≤ min (L - 1 + 3) (2 ^ 32 - 1) := by
    simp only [hM]
    omega
  simp only [decorateEntry, hfs]
  rw [readWindowLoop_window content _ _ hs hlen, window_reindex]

/-- C7 counterexample: the claim states the key set runs from
`max 1 (L-2)` through `L+2` whenever the file has at least `L+3`
lines.  At `L = u32::MAX = 4294967295`, with a `2^32 + 2`-line file,
the code's saturating window `upto = (L-1).saturating_add(3)` caps at
`u32::MAX`, so only the three keys `L-2 .. L` are produced, not the
claimed five keys `L-2 .. L+2`. -/
theorem decorate_window_overflow_cex :
    ¬ ((decorateEntry big_fs
          { line := some 4294967295, file := some "big.rs".data, method := [] }).source.map
            (fun w => w.map Prod.fst) =
        some (List.range' (max 1 (4294967295 - 2))
          (4294967295 + 2 + 1 - max 1 (4294967295 - 2)))) := by
  have hM : (2 : ℕ) ^ 32 = 4294967296 := by norm_num
  have hfs : big_fs "big.rs".data = some big_content := by simp [big_fs]
  have hlen : min (4294967295 - 1 + 3) (2 ^ 32 - 1) ≤ big_content.length := by
    simp only [big_content, List.length_replicate, hM]
    omega
  rw [decorate_source_eq big_fs "big.rs".data big_content [] 4294967295 (by norm_num)
    (by norm_num) hfs hlen]
  intro h
  simp only [Option.map_some'] at h
  rw [Option.some.injEq] at h
  have hlength := congrArg List.length h
  simp only [List.length_map, List.length_range'] at hlength
  rw [hM] at hlength
  omega

/-- C7 (amended): for a frame pointing at 1-based `u32` line `L` of a
readable file with at least `L + 3` lines, the source map is present
and its keys are exactly `max 1 (L-2)` through `min (L+2) (u32::MAX)`
— the spec's two-before/two-after window clipped at the file
boundaries *and at the `u32` saturation bound* — each key mapping to
that line's text; frames without a resolvable file and line pass
through with no source. -/
theorem decorate_source_window (fs : FileSys) (file : Str) (content : List Str)
    (m : Str) (L : Nat) (h1 : 1 ≤ L) (h2 : L < 2 ^ 32)
    (hfs : fs file = some content) (hlen : L + 3 ≤ content.length) :
    (decorateEntry fs { line := some L, file := some file, method := m }).source =
      some ((List.range' (max 1 (L - 2))
          (min (L + 2) (2 ^ 32 - 1) + 1 - max 1 (L - 2))).map
        (fun k => (k, content.getD (k - 1) []))) ∧
    (∀ f m', (decorateEntry fs { line := none, file := f, method := m' }).source = none) ∧
    (∀ l m', (decorateEntry fs { line := l, file := none, method := m' }).source = none) := by
  have hM : (2 : ℕ) ^ 32 = 4294967296 := by norm_num
  refine ⟨?_, ?_, ?_⟩
  · rw [decorate_source_eq fs file content m L h1 h2 hfs (by simp only [hM]; omega)]
    have e1 : L - 1 - 2 + 1 = max 1 (L - 2) := by omega
    have e2 : min (L - 1 + 3) (2 ^ 32 - 1) - (L - 1 - 2) =
        min (L + 2) (2 ^ 32 - 1) + 1 - max 1 (L - 2) := by
      simp only [hM]
      omega
    rw [e1, e2]
  · intro f m'
    rfl
  · intro l m'
    cases l with
    | none => rfl
    | some n => rfl

theorem decorate_source_window_witness :
    (decorateEntry small_fs
        { line := some 5, file := some "small.rs".data, method := [] }).source =
      some [(3, "a3".data), (4, "a4".data), (5, "a5".data), (6, "a6".data), (7, "a7".data)] := by
  rw [(decorate_source_window small_fs "small.rs".data small_content [] 5 (by norm_num)
    (by norm_num) (by decide) (by decide)).1]
  decide

/-! ## C6: the backtrace parser on method/location line pairs -/

theorem getLast?_append_ne_nil {α : Type} (l1 l2 : List α) (h : l2 ≠ []) :
    (l1 ++ l2).getLast? = l2.getLast? := by
  rw [List.getLast?_append]
  obtain ⟨x, hx⟩ := Option.isSome_iff_exists.mp (List.getLast?_isSome.mpr h)
  rw [hx]
  rfl

theorem trimLeft_of_head (l : Str) (h : (l.head?.getD ' ').isWhitespace = false) :
    trimLeft l = l := by
  cases l with
  | nil => rfl
  | cons c t =>
    have hc : c.isWhitespace = false := by simpa using h
    simp [trimLeft, List.dropWhile_cons, hc]

theorem trimBoth_of_edges (l : Str) (h1 : (l.head?.getD ' ').isWhitespace = false)
    (h2 : (l.getLast?.getD ' ').isWhitespace = false) : trimBoth l = l := by
  unfold trimBoth
  rw [trimLeft_of_head l h1]
  cases hr : l.reverse with
  | nil =>
    have : l = [] := by simpa using congrArg List.reverse hr
    simp [this]
  | cons c t =>
    have hlast : l.getLast? = some c := by
      rw [← List.head?_reverse, hr, List.head?_cons]
    have hc : c.isWhitespace = false := by
      rw [hlast] at h2
      simpa using h2
    have hd : List.dropWhile Char.isWhitespace (c :: t) = c :: t := by
      simp [List.dropWhile_cons, hc]
    rw [hd, ← hr, List.reverse_reverse]

theorem splitAtLastColon_of_not_mem (l : Str) (h : ¬ ':' ∈ l) :
    splitAtLastColon l = none := by
  induction l with
  | nil => rfl
  | cons c t ih =>
    have hc : ¬ (c = ':') := by
      intro hx
      exact h (by rw [hx]; exact List.mem_cons_self _ _)
    have ht : splitAtLastColon t = none := ih (fun hx => h (List.mem_cons_of_mem c hx))
    simp [splitAtLastColon, ht, hc]

theorem splitAtLastColon_append (f ds : Str) (h : ¬ ':' ∈ ds) :
    splitAtLastColon (f ++ ':' :: ds) = some (f, ds) := by
  induction f with
  | nil => simp [splitAtLastColon, splitAtLastColon_of_not_mem ds h]
  | cons c t ih => simp [splitAtLastColon, ih]

theorem processLine_plain (m : Str) (h : isPlainMethodLine m = true) :
    processLine m = .method m := by
  unfold isPlainMethodLine at h
  simp only [Bool.and_eq_true, Bool.not_eq_true'] at h
  obtain ⟨⟨⟨⟨⟨⟨⟨h1, h2⟩, h3⟩, h4⟩, h5⟩, h6⟩, h7⟩, h8⟩ := h
  have e0 : ¬ (m = []) := by
    intro hm
    rw [hm] at h1
    simp at h1
  have e1 : trimBoth m = m := trimBoth_of_edges m h2 h3
  have e2 : ¬ (m = "stack backtrace:".data) := ne_of_beq_false h4
  have e3 : ¬ (m.head? = some '-') := by
    intro hm
    rw [hm] at h7
    simp at h7
  simp [processLine, e1, e2, e3, e0, h5, h6, h8, trimLeft_of_head m h2]

theorem processLine_loc (f ds : Str) (h : isLocTail f ds = true) :
    processLine (mkLocLine f ds) = .loc f ((parseU32 ds).getD 1) := by
  unfold isLocTail at h
  simp only [Bool.and_eq_true, Bool.not_eq_true'] at h
  obtain ⟨⟨h1, h2⟩, h3⟩ := h
  have hnc : ¬ (':' ∈ ds) := by
    intro hx
    have h3' : ds.elem ':' = false := h3
    rw [List.elem_iff.mpr hx] at h3'
    exact Bool.noConfusion h3'
  have hme : mkLocLine f ds = ['a', 't', ' '] ++ (f ++ ':' :: ds) := rfl
  have hrest_ne : (f ++ ':' :: ds) ≠ [] := by simp
  have hlast : (mkLocLine f ds).getLast? = (f ++ ':' :: ds).getLast? := by
    rw [hme, getLast?_append_ne_nil _ _ hrest_ne]
  have e1 : trimBoth (mkLocLine f ds) = mkLocLine f ds := by
    apply trimBoth_of_edges
    · rfl
    · rw [hlast]
      exact h2
  have e2 : ¬ (mkLocLine f ds = "stack backtrace:".data) := by
    rw [hme]
    intro hx
    simp at hx
  have e3 : ¬ ((mkLocLine f ds).head? = some '-') := by
    rw [hme]
    intro hx
    simp at hx
  have e4 : ((mkLocLine f ds).head?.getD ' ').isDigit = false := rfl
  have e5 : (['0', 'x'].isPrefixOf (mkLocLine f ds)) = false := rfl
  have e6 : ("at ".data.isPrefixOf (mkLocLine f ds)) = true := by
    rw [show "at ".data = ['a', 't', ' '] from rfl]
    show (['a', 't', ' '].isPrefixOf ('a' :: 't' :: ' ' :: (f ++ ':' :: ds))) = true
    simp [List.isPrefixOf]
  have e7 : ¬ (mkLocLine f ds = []) := by
    rw [hme]
    simp
  have e8 : trimLeft (f ++ ':' :: ds) = f ++ ':' :: ds := trimLeft_of_head _ h1
  have e9 : splitAtLastColon (f ++ ':' :: ds) = some (f, ds) :=
    splitAtLastColon_append f ds hnc
  have e10 : (mkLocLine f ds).drop 3 = f ++ ':' :: ds := rfl
  have e11 : trimLeft (mkLocLine f ds) = mkLocLine f ds :=
    trimLeft_of_head _ (by rfl)
  simp only [processLine]
  rw [e1]
  simp [e2, e3, e4, e5, e6, e7, e8, e9, e10, e11]

theorem pstep_method (s : PState) (m : Str) (h : isPlainMethodLine m = true) :
    pstep s m = { last_file := none, last_method := some m, acc := (flush s).acc } := by
  cases hm : s.last_method with
  | none => simp [pstep, processLine_plain m h, flush, hm]
  | some m' => simp [pstep, processLine_plain m h, flush, hm]

theorem pstep_loc (s : PState) (f ds : Str) (h : isLocTail f ds = true) :
    pstep s (mkLocLine f ds) = { s with last_file := some (f, (parseU32 ds).getD 1) } := by
  simp [pstep, processLine_loc f ds h]

theorem foldl_pair (s : PState) (m : Str) (o : Option (Str × Str))
    (hm : isPlainMethodLine m = true)
    (hloc : o.all (fun q => isLocTail q.1 q.2) = true) :
    (m :: locLines o).foldl pstep s =
      { last_file := o.map (fun q => (q.1, (parseU32 q.2).getD 1))
        last_method := some m
        acc := (flush s).acc } := by
  cases o with
  | none =>
    simp [locLines, List.foldl_cons, List.foldl_nil, pstep_method s m hm]
  | some q =>
    obtain ⟨f, ds⟩ := q
    have hl : isLocTail f ds = true := by simpa using hloc
    simp [locLines, List.foldl_cons, List.foldl_nil, pstep_method s m hm,
      pstep_loc _ f ds hl]

theorem flush_state_pair (A : List BacktraceLine) (m : Str) (o : Option (Str × Str)) :
    (flush { last_file := o.map (fun q => (q.1, (parseU32 q.2).getD 1))
             last_method := some m, acc := A }).acc = A ++ [mkEntry (m, o)] := by
  cases o with
  | none => rfl
  | some q => rfl

theorem parse_fold_pairs (ps : List (Str × Option (Str × Str)))
    (h : ∀ p ∈ ps, isPlainMethodLine p.1 = true ∧ p.2.all (fun q => isLocTail q.1 q.2) = true) :
    ∀ s : PState,
      (flush ((renderPairs ps).foldl pstep s)).acc = (flush s).acc ++ ps.map mkEntry := by
  induction ps with
  | nil =>
    intro s
    simp [renderPairs]
  | cons p ps ih =>
    obtain ⟨m, o⟩ := p
    intro s
    obtain ⟨hm, hloc⟩ := h (m, o) (List.mem_cons_self _ _)
    have hrest := fun p' hp' => h p' (List.mem_cons_of_mem (m, o) hp')
    have hrender : renderPairs ((m, o) :: ps) =
        (m :: locLines o) ++ renderPairs ps := by
      simp [renderPairs]
    rw [hrender, List.foldl_append, foldl_pair s m o hm hloc, ih hrest, flush_state_pair]
    simp

/-- C6: for a trace whose lines are well-formed method lines, each
optionally followed by one `at <file>:<line>` location line, the parser
returns exactly one entry per method line in order; an entry whose
method line is followed by a location line carries that line's file and
parsed line number (1 when the number does not parse as a `u32`), and a
method line with no following location line yields an entry with
`file = none` and `line = none` — it is not dropped. -/
theorem parse_pairs_spec (ps : List (Str × Option (Str × Str)))
    (h : ∀ p ∈ ps, isPlainMethodLine p.1 = true ∧ p.2.all (fun q => isLocTail q.1 q.2) = true) :
    parse (renderPairs ps) = ps.map mkEntry := by
  have hmain := parse_fold_pairs ps h { last_file := none, last_method := none, acc := [] }
  simpa [parse, flush] using hmain

theorem parse_pairs_spec_witness :
    parse (renderPairs
      [("foo::bar::h1".data, some ("src/main.rs".data, "10".data)),
       ("core::ops::h2".data, none)]) =
      [{ line := some 10, file := some "src/main.rs".data, method := "foo::bar::h1".data },
       { line := none, file := none, method := "core::ops::h2".data }] := by
  rw [parse_pairs_spec _ (by decide)]
  decide

end Mightybadger
